import Mathlib

/-!
Verification of the maptalks view-transform pipeline (camera parameters,
derived matrices, forward/backward point projection) and its PointSymbolizer
consumer, embedded shallowly over an arbitrary linear ordered field `K`
(idealized infinite-precision arithmetic).  The stateful `Map` methods are
modelled as functions from a `MapState` to a new `MapState` together with a
trace of observable effects and an optional thrown error.
-/

namespace MT

/-- 2D point (geo/Point), only the x/y data the transform pipeline uses. -/
structure Pt (K : Type) where
  x : K
  y : K
  deriving DecidableEq

/-- Homogeneous 4-vector, as the length-4 JS arrays fed to `mat4.transformMat4`. -/
structure Vec4 (K : Type) where
  x : K
  y : K
  z : K
  w : K
  deriving DecidableEq

/-- Column-major 4x4 matrix with gl-matrix array layout: entry (row r, col c)
is the field numbered `4*c + r`.  Modelled from the spec: the Matrix Algebra
Module (`core/util/mat4`) is not under src/; these are the standard
gl-matrix-semantics pure operations the spec lists (multiply, scale,
translate, rotate about X/Z, perspective construction, invert). -/
structure Mat4 (K : Type) where
  m0 : K
  m1 : K
  m2 : K
  m3 : K
  m4 : K
  m5 : K
  m6 : K
  m7 : K
  m8 : K
  m9 : K
  m10 : K
  m11 : K
  m12 : K
  m13 : K
  m14 : K
  m15 : K
  deriving DecidableEq

variable {K : Type} [LinearOrderedField K]

/-- `mat4.create()`: the identity matrix. -/
def mat4Create : Mat4 K :=
  ⟨1, 0, 0, 0, 0, 1, 0, 0, 0, 0, 1, 0, 0, 0, 0, 1⟩

/-- `mat4.transformMat4(out, a, m)`: `out = m · a` (column-major). -/
def transformMat4 (a : Vec4 K) (m : Mat4 K) : Vec4 K :=
  ⟨m.m0 * a.x + m.m4 * a.y + m.m8 * a.z + m.m12 * a.w,
   m.m1 * a.x + m.m5 * a.y + m.m9 * a.z + m.m13 * a.w,
   m.m2 * a.x + m.m6 * a.y + m.m10 * a.z + m.m14 * a.w,
   m.m3 * a.x + m.m7 * a.y + m.m11 * a.z + m.m15 * a.w⟩

/-- `mat4.multiply(out, a, b)`: `out = a · b`. -/
def mat4Mul (a b : Mat4 K) : Mat4 K :=
  ⟨b.m0 * a.m0 + b.m1 * a.m4 + b.m2 * a.m8 + b.m3 * a.m12,
   b.m0 * a.m1 + b.m1 * a.m5 + b.m2 * a.m9 + b.m3 * a.m13,
   b.m0 * a.m2 + b.m1 * a.m6 + b.m2 * a.m10 + b.m3 * a.m14,
   b.m0 * a.m3 + b.m1 * a.m7 + b.m2 * a.m11 + b.m3 * a.m15,
   b.m4 * a.m0 + b.m5 * a.m4 + b.m6 * a.m8 + b.m7 * a.m12,
   b.m4 * a.m1 + b.m5 * a.m5 + b.m6 * a.m9 + b.m7 * a.m13,
   b.m4 * a.m2 + b.m5 * a.m6 + b.m6 * a.m10 + b.m7 * a.m14,
   b.m4 * a.m3 + b.m5 * a.m7 + b.m6 * a.m11 + b.m7 * a.m15,
   b.m8 * a.m0 + b.m9 * a.m4 + b.m10 * a.m8 + b.m11 * a.m12,
   b.m8 * a.m1 + b.m9 * a.m5 + b.m10 * a.m9 + b.m11 * a.m13,
   b.m8 * a.m2 + b.m9 * a.m6 + b.m10 * a.m10 + b.m11 * a.m14,
   b.m8 * a.m3 + b.m9 * a.m7 + b.m10 * a.m11 + b.m11 * a.m15,
   b.m12 * a.m0 + b.m13 * a.m4 + b.m14 * a.m8 + b.m15 * a.m12,
   b.m12 * a.m1 + b.m13 * a.m5 + b.m14 * a.m9 + b.m15 * a.m13,
   b.m12 * a.m2 + b.m13 * a.m6 + b.m14 * a.m10 + b.m15 * a.m14,
   b.m12 * a.m3 + b.m13 * a.m7 + b.m14 * a.m11 + b.m15 * a.m15⟩

/-- `mat4.scale(out, a, [x, y, z])`. -/
def mat4Scale (a : Mat4 K) (x y z : K) : Mat4 K :=
  ⟨a.m0 * x, a.m1 * x, a.m2 * x, a.m3 * x,
   a.m4 * y, a.m5 * y, a.m6 * y, a.m7 * y,
   a.m8 * z, a.m9 * z, a.m10 * z, a.m11 * z,
   a.m12, a.m13, a.m14, a.m15⟩

/-- `mat4.translate(out, a, [x, y, z])` (in-place variant: only the last
column changes). -/
def mat4Translate (a : Mat4 K) (x y z : K) : Mat4 K :=
  { a with
    m12 := a.m0 * x + a.m4 * y + a.m8 * z + a.m12
    m13 := a.m1 * x + a.m5 * y + a.m9 * z + a.m13
    m14 := a.m2 * x + a.m6 * y + a.m10 * z + a.m14
    m15 := a.m3 * x + a.m7 * y + a.m11 * z + a.m15 }

/-- `mat4.rotateX(out, a, rad)` with `s = sin rad`, `c = cos rad` supplied
by the caller (trigonometry is a parameter of the idealized model). -/
def mat4RotateX (a : Mat4 K) (s c : K) : Mat4 K :=
  { a with
    m4 := a.m4 * c + a.m8 * s
    m5 := a.m5 * c + a.m9 * s
    m6 := a.m6 * c + a.m10 * s
    m7 := a.m7 * c + a.m11 * s
    m8 := a.m8 * c - a.m4 * s
    m9 := a.m9 * c - a.m5 * s
    m10 := a.m10 * c - a.m6 * s
    m11 := a.m11 * c - a.m7 * s }

/-- `mat4.rotateZ(out, a, rad)` with `s = sin rad`, `c = cos rad` supplied
by the caller. -/
def mat4RotateZ (a : Mat4 K) (s c : K) : Mat4 K :=
  { a with
    m0 := a.m0 * c + a.m4 * s
    m1 := a.m1 * c + a.m5 * s
    m2 := a.m2 * c + a.m6 * s
    m3 := a.m3 * c + a.m7 * s
    m4 := a.m4 * c - a.m0 * s
    m5 := a.m5 * c - a.m1 * s
    m6 := a.m6 * c - a.m2 * s
    m7 := a.m7 * c - a.m3 * s }

/-- `mat4.perspective(out, fovy, aspect, near, far)` with
`f = 1 / tan(fovy / 2)` supplied by the caller. -/
def mat4Perspective (f aspect near far : K) : Mat4 K :=
  ⟨f / aspect, 0, 0, 0,
   0, f, 0, 0,
   0, 0, (far + near) * (1 / (near - far)), -1,
   0, 0, 2 * far * near * (1 / (near - far)), 0⟩

/-- `mat4.invert(out, a)`: cofactor-expansion inverse; returns `none`
(JS `null`) when the determinant is zero. -/
def mat4Invert (a : Mat4 K) : Option (Mat4 K) :=
  let b00 := a.m0 * a.m5 - a.m1 * a.m4
  let b01 := a.m0 * a.m6 - a.m2 * a.m4
  let b02 := a.m0 * a.m7 - a.m3 * a.m4
  let b03 := a.m1 * a.m6 - a.m2 * a.m5
  let b04 := a.m1 * a.m7 - a.m3 * a.m5
  let b05 := a.m2 * a.m7 - a.m3 * a.m6
  let b06 := a.m8 * a.m13 - a.m9 * a.m12
  let b07 := a.m8 * a.m14 - a.m10 * a.m12
  let b08 := a.m8 * a.m15 - a.m11 * a.m12
  let b09 := a.m9 * a.m14 - a.m10 * a.m13
  let b10 := a.m9 * a.m15 - a.m11 * a.m13
  let b11 := a.m10 * a.m15 - a.m11 * a.m14
  let det := b00 * b11 - b01 * b10 + b02 * b09 + b03 * b08 - b04 * b07 + b05 * b06
  if det = 0 then none
  else some
    ⟨(a.m5 * b11 - a.m6 * b10 + a.m7 * b09) / det,
     (a.m2 * b10 - a.m1 * b11 - a.m3 * b09) / det,
     (a.m13 * b05 - a.m14 * b04 + a.m15 * b03) / det,
     (a.m10 * b04 - a.m9 * b05 - a.m11 * b03) / det,
     (a.m6 * b08 - a.m4 * b11 - a.m7 * b07) / det,
     (a.m0 * b11 - a.m2 * b08 + a.m3 * b07) / det,
     (a.m14 * b02 - a.m12 * b05 - a.m15 * b01) / det,
     (a.m8 * b05 - a.m10 * b02 + a.m11 * b01) / det,
     (a.m4 * b10 - a.m5 * b08 + a.m7 * b06) / det,
     (a.m1 * b08 - a.m0 * b10 - a.m3 * b06) / det,
     (a.m12 * b04 - a.m13 * b02 + a.m15 * b00) / det,
     (a.m9 * b02 - a.m8 * b04 - a.m11 * b00) / det,
     (a.m5 * b07 - a.m4 * b09 - a.m6 * b06) / det,
     (a.m0 * b09 - a.m1 * b07 + a.m2 * b06) / det,
     (a.m13 * b01 - a.m12 * b03 - a.m14 * b00) / det,
     (a.m8 * b03 - a.m9 * b01 + a.m10 * b00) / det⟩

/-- The trigonometric primitives (`Math.tan`, `Math.sin`, `Math.cos`,
`Math.PI`) used by the pipeline, as a parameter of the idealized embedding:
the code calls the host math library, the idealized model takes the
functions as an input (instantiated with `Real.sin` etc. over `ℝ`). -/
structure Trig (K : Type) where
  sin : K → K
  cos : K → K
  tan : K → K
  pi : K

/-- `const RADIAN = Math.PI / 180`. -/
def RADIAN (tr : Trig K) : K := tr.pi / 180

/-- `const DEFAULT_FOV = 0.6435011087932844` (radians). -/
def defaultFov (K : Type) [LinearOrderedField K] : K :=
  6435011087932844 / 10000000000000000

/-- Modelled from the spec: `clamp` from core/util is not under src/; the
spec says out-of-range pitch is clamped to the closed range. -/
def clamp (n lo hi : K) : K := min (max n lo) hi

/-- Modelled from the spec: `wrap` from core/util is not under src/; the
spec says the raw bearing is wrapped into (-180, 180] before negation. -/
def wrap [FloorRing K] (n : K) : K :=
  n - 360 * ((⌈(n - 180) / 360⌉ : ℤ) : K)

/-- Modelled from the spec: `interpolate` from core/util is not under src/;
the spec says x and y are obtained by linear interpolation by `t`. -/
def interpolate (a b t : K) : K := a * (1 - t) + b * t

/-- JS truthiness test for a possibly-undefined numeric field:
`!x` is true exactly when the field is undefined or zero. -/
def falsy [DecidableEq K] (o : Option K) : Bool :=
  o = none ∨ o = some 0

/-- The numeric value of a JS field that is known to be defined. -/
def jsVal (o : Option K) : K := o.getD 0

/-- The errors the component can throw. -/
inductive MapErr : Type
  | ie9Rotate
  | ie9Tilt
  | invertFail
  deriving DecidableEq

/-- Observable side effects of a setter call: a `_calcMatrices` run, a
`_renderLayers` pass, and the fired change events with their payloads. -/
inductive Eff (K : Type) : Type
  | calcM
  | render
  | fovchange (fr tov : K)
  | rotate (fr tov : K)
  | pitchEvent (fr tov : K)
  deriving DecidableEq

/-- The mutable camera state of a `Map` instance: the three internal camera
fields (radians, possibly undefined), the viewport, the map-space center
point (`this._prjToPoint(this._prjCenter)` — the projection collaborators
are folded into this value), the four derived matrices, and the collaborator
predicates `isZooming()` and `Browser.ie9`.  An unset viewport height is
modelled as `0` (both are JS-falsy and behave identically). -/
structure MapState (K : Type) where
  _fov : Option K
  _pitch : Option K
  _angle : Option K
  width : K
  height : K
  centerPoint : Pt K
  projMatrix : Option (Mat4 K)
  pixelMatrix : Option (Mat4 K)
  pixelMatrixInverse : Option (Mat4 K)
  cameraMatrix : Option (Mat4 K)
  cameraToCenterDistance : K
  zooming : Bool
  ie9 : Bool
  deriving DecidableEq

variable [DecidableEq K]

/-- `getFov()` (the JS method also writes the default back into `this._fov`;
the returned value is the same either way). -/
def getFov (tr : Trig K) (st : MapState K) : K :=
  (if falsy st._fov then defaultFov K else jsVal st._fov) / RADIAN tr

/-- `getBearing()`. -/
def getBearing (tr : Trig K) (st : MapState K) : K :=
  if falsy st._angle then 0 else -jsVal st._angle / RADIAN tr

/-- `getPitch()`. -/
def getPitch (tr : Trig K) (st : MapState K) : K :=
  if falsy st._pitch then 0 else jsVal st._pitch / tr.pi * 180

/-- `getCameraMatrix()`: `this.cameraMatrix || null`. -/
def getCameraMatrix (st : MapState K) : Option (Mat4 K) :=
  st.cameraMatrix

/-- Lines 196–226 and 234 of `_calcMatrices`: the projection matrix
(perspective frustum, y-flip, camera pull-back, pitch and bearing rotations,
then the center-point translation). -/
def buildProjMatrix (tr : Trig K) (fov pitch angle w h : K) (center : Pt K) :
    Mat4 K :=
  let ctcd := 0.5 / tr.tan (fov / 2) * h
  let halfFov := fov / 2
  let groundAngle := tr.pi / 2 + pitch
  let topHalfSurfaceDistance :=
    tr.sin halfFov * ctcd / tr.sin (tr.pi - groundAngle - halfFov)
  let furthestDistance :=
    tr.cos (tr.pi / 2 - pitch) * topHalfSurfaceDistance + ctcd
  let farZ := furthestDistance * 1.01
  let m := mat4Perspective (1 / tr.tan (fov / 2)) (w / h) 1 farZ
  let m := mat4Scale m 1 (-1) 1
  let m := mat4Translate m 0 0 (-ctcd)
  let m := mat4RotateX m (tr.sin pitch) (tr.cos pitch)
  let m := mat4RotateZ m (tr.sin angle) (tr.cos angle)
  mat4Translate m (-center.x) (-center.y) 0

/-- The snapshot `m2` taken before the center-point translation (line 224),
basis of the css3 `cameraMatrix`. -/
def buildCameraBasis (tr : Trig K) (fov pitch angle h : K) : Mat4 K :=
  let ctcd := 0.5 / tr.tan (fov / 2) * h
  let halfFov := fov / 2
  let groundAngle := tr.pi / 2 + pitch
  let topHalfSurfaceDistance :=
    tr.sin halfFov * ctcd / tr.sin (tr.pi - groundAngle - halfFov)
  let furthestDistance :=
    tr.cos (tr.pi / 2 - pitch) * topHalfSurfaceDistance + ctcd
  let farZ := furthestDistance * 1.01
  let m := mat4Perspective (1 / tr.tan (fov / 2)) (0 / h) 1 farZ
  let m := mat4Scale m 1 (-1) 1
  let m := mat4Translate m 0 0 (-ctcd)
  let m := mat4RotateX m (tr.sin pitch) (tr.cos pitch)
  mat4RotateZ m (tr.sin angle) (tr.cos angle)

/-- Lines 237–240: the pixel matrix, composition of the screen-space
scale/translate with the projection matrix. -/
def buildPixelMatrix (tr : Trig K) (fov pitch angle w h : K) (center : Pt K) :
    Mat4 K :=
  let m := mat4Translate (mat4Scale mat4Create (w / 2) (-h / 2) 1) 1 (-1) 0
  mat4Mul m (buildProjMatrix tr fov pitch angle w h center)

/-- `_clearMatrices()`. -/
def clearMatrices (st : MapState K) : MapState K :=
  { st with projMatrix := none, pixelMatrix := none,
            pixelMatrixInverse := none, cameraMatrix := none }

/-- Lines 181–189 of `_calcMatrices`: fill the unset (JS-falsy) internal
fields with their defaults.  The three sequential `if (!this.x) this.x = d`
mutations are independent (each reads only the field it writes), so they
are modelled as one record update. -/
def fillDefaults (st : MapState K) : MapState K :=
  { st with
    _fov := if falsy st._fov then some (defaultFov K) else st._fov,
    _pitch := if falsy st._pitch then some 0 else st._pitch,
    _angle := if falsy st._angle then some 0 else st._angle }

/-- `_calcMatrices()`: returns the state of `this` after the call together
with the thrown error if the pixel-matrix inversion failed (in that case the
mutations made before the `throw` are retained, as on a JS object). -/
def calcMatrices (tr : Trig K) (st : MapState K) : MapState K × Option MapErr :=
  if st.height = 0 then (st, none)
  else
    let st1 := fillDefaults st
    if falsy st1._pitch ∧ falsy st1._angle then (clearMatrices st1, none)
    else
      let fov := jsVal st1._fov
      let pitch := jsVal st1._pitch
      let angle := jsVal st1._angle
      let ctcd := 0.5 / tr.tan (fov / 2) * st1.height
      let proj := buildProjMatrix tr fov pitch angle st1.width st1.height st1.centerPoint
      let pixel := buildPixelMatrix tr fov pitch angle st1.width st1.height st1.centerPoint
      let st2 := { st1 with cameraToCenterDistance := ctcd,
                            projMatrix := some proj, pixelMatrix := some pixel }
      match mat4Invert pixel with
      | none => (st2, some MapErr.invertFail)
      | some inv =>
        let m2 := buildCameraBasis tr fov pitch angle st1.height
        let cam := mat4Mul (mat4Scale mat4Create (st1.width / 2) (-st1.height / 2) 1) m2
        ({ st2 with pixelMatrixInverse := some inv, cameraMatrix := some cam }, none)

/-- `_renderLayers()` is a pure fan-out to the layer renderers; it is
recorded in the effect trace as a single re-render pass. -/
def setFov (tr : Trig K) (st : MapState K) (fov : K) :
    MapState K × List (Eff K) × Option MapErr :=
  if st.zooming then (st, [], none)
  else
    let fov2 := max (1 / 100) (min 60 fov)
    if st._fov = some fov2 then (st, [], none)
    else
      let fr := getFov tr st
      let st1 := { st with _fov := some (fov2 * RADIAN tr) }
      match calcMatrices tr st1 with
      | (st2, some e) => (st2, [Eff.calcM], some e)
      | (st2, none) =>
        (st2, [Eff.calcM, Eff.render, Eff.fovchange fr (getFov tr st2)], none)

/-- `setBearing(bearing)`. -/
def setBearing [FloorRing K] (tr : Trig K) (st : MapState K) (bearing : K) :
    MapState K × List (Eff K) × Option MapErr :=
  if st.ie9 then (st, [], some MapErr.ie9Rotate)
  else if st.zooming then (st, [], none)
  else
    let b := -wrap bearing * RADIAN tr
    if st._angle = some b then (st, [], none)
    else
      let fr := getBearing tr st
      let st1 := { st with _angle := some b }
      match calcMatrices tr st1 with
      | (st2, some e) => (st2, [Eff.calcM], some e)
      | (st2, none) => (st2, [Eff.calcM, Eff.render, Eff.rotate fr b], none)

/-- `setPitch(pitch)`. -/
def setPitch (tr : Trig K) (st : MapState K) (pitch : K) :
    MapState K × List (Eff K) × Option MapErr :=
  if st.ie9 then (st, [], some MapErr.ie9Tilt)
  else if st.zooming then (st, [], none)
  else
    let p := clamp pitch 0 60 * RADIAN tr
    if st._pitch = some p then (st, [], none)
    else
      let fr := getPitch tr st
      let st1 := { st with _pitch := some p }
      match calcMatrices tr st1 with
      | (st2, some e) => (st2, [Eff.calcM], some e)
      | (st2, none) => (st2, [Eff.calcM, Eff.render, Eff.pitchEvent fr p], none)

/-- `_pointToContainerPoint(point)` (zoom argument left `undefined`, so the
initial `_pointToPoint` zoom rescale is the identity): perspective path via
the pixel matrix, else the flat-mode affine shortcut. -/
def pointToContainerPoint (pixelMatrix : Option (Mat4 K)) (w h : K)
    (center : Pt K) (point : Pt K) : Pt K :=
  match pixelMatrix with
  | some pm =>
    let t := transformMat4 ⟨point.x, point.y, 0, 1⟩ pm
    ⟨t.x / t.w, t.y / t.w⟩
  | none => ⟨point.x - center.x + w / 2, point.y - center.y + h / 2⟩

/-- `_containerPointToPoint(p)` (zoom argument left `undefined`): unproject
at device depth 0 and 1 through the inverse pixel matrix and intersect the
resulting ray with the ground plane `z = 0`; flat path otherwise. -/
def containerPointToPoint (pixelMatrixInverse : Option (Mat4 K)) (w h : K)
    (center : Pt K) (p : Pt K) : Pt K :=
  match pixelMatrixInverse with
  | some inv =>
    let coord0 := transformMat4 ⟨p.x, p.y, 0, 1⟩ inv
    let coord1 := transformMat4 ⟨p.x, p.y, 1, 1⟩ inv
    let w0 := coord0.w
    let w1 := coord1.w
    let x0 := coord0.x / w0
    let x1 := coord1.x / w1
    let y0 := coord0.y / w0
    let y1 := coord1.y / w1
    let z0 := coord0.z / w0
    let z1 := coord1.z / w1
    let t := if z0 = z1 then 0 else (0 - z0) / (z1 - z0)
    ⟨interpolate x0 x1 t, interpolate y0 y1 t⟩
  | none => ⟨center.x + (p.x - w / 2), center.y + (p.y - h / 2)⟩

/-- Method form of `_pointToContainerPoint` on the map state. -/
def MapState.p2c (st : MapState K) (point : Pt K) : Pt K :=
  pointToContainerPoint st.pixelMatrix st.width st.height st.centerPoint point

/-- Method form of `_containerPointToPoint` on the map state. -/
def MapState.c2p (st : MapState K) (p : Pt K) : Pt K :=
  containerPointToPoint st.pixelMatrixInverse st.width st.height st.centerPoint p

/-- The data of a `PointSymbolizer` relevant to `_getRotationAt`: the
configured symbol rotation (`this.getRotation()`, possibly undefined) and
the rotation reference-point pairs `this._getRenderPoints()[1]` (possibly
undefined). -/
structure SymbolizerState (K : Type) where
  rotation : Option K
  renderRotations : Option (List (Pt K × Pt K))

/-- `PointSymbolizer.prototype._getRotationAt(i)`.  `computeDegree` (from
core/util, not under src/) and the max-zoom rescale `_pointToPoint(·, maxZoom)`
performed inside `_pointToContainerPoint(·, maxZoom)` are collaborator
parameters `deg` and `p2pMax`. -/
def getRotationAt (deg : Pt K → Pt K → K) (p2pMax : Pt K → Pt K)
    (st : MapState K) (sym : SymbolizerState K) (i : ℕ) : Option K :=
  match sym.renderRotations with
  | none => sym.rotation
  | some rotations =>
    let r := if falsy sym.rotation then 0 else jsVal sym.rotation
    let pr := rotations.getD i (⟨0, 0⟩, ⟨0, 0⟩)
    match getCameraMatrix st with
    | some _ =>
      let p0 := pointToContainerPoint st.pixelMatrix st.width st.height
        st.centerPoint (p2pMax pr.1)
      let p1 := pointToContainerPoint st.pixelMatrix st.width st.height
        st.centerPoint (p2pMax pr.2)
      some (r + deg p0 p1)
    | none => some (r + deg pr.1 pr.2)

/-! ### Concrete instances used for concrete executions

`trQ` is a rational stand-in for the host math library: `tan` is constantly
`1/3` (the exact value of `tan(DEFAULT_FOV/2)` for the default field of
view), `sin`/`cos` return the 3-4-5 values `3/5`/`4/5` away from zero and
the exact values at zero, and `pi` is the exact value of the IEEE-754
double `Math.PI`.  The structural claims evaluated with it do not depend on
the trigonometric values. -/

def trQ : Trig ℚ :=
  ⟨fun x => if x = 0 then 0 else 3/5, fun x => if x = 0 then 1 else 4/5,
   fun _ => 1/3, 884279719003555/281474976710656⟩

/-- A fresh flat map state: 800x600 viewport, no camera field set. -/
def stFlat : MapState ℚ :=
  ⟨none, none, none, 800, 600, ⟨0, 0⟩, none, none, none, none, 0, false, false⟩

/-- A flat map state whose viewport height is not yet set. -/
def stNoHeight : MapState ℚ :=
  ⟨none, none, none, 800, 0, ⟨0, 0⟩, none, none, none, none, 0, false, false⟩

/-- A tilted state (pitch 1 rad) whose container width has collapsed to 0,
with stale derived matrices left over from an earlier viewport. -/
def stZeroWidth : MapState ℚ :=
  ⟨some 1, some 1, some 0, 0, 2, ⟨0, 0⟩, some mat4Create, some mat4Create,
   some mat4Create, some mat4Create, 0, false, false⟩

/-- A tilted state (pitch 1 rad, bearing unset) with stale matrices. -/
def stTilted : MapState ℚ :=
  ⟨some 1, some 1, none, 800, 600, ⟨0, 0⟩, some mat4Create, some mat4Create,
   some mat4Create, some mat4Create, 0, false, false⟩

/-- The state whose internal fov is exactly 0.01 radians. -/
def stFov001 : MapState ℚ := { stFlat with _fov := some (1/100) }

/-- An IE9 state in the middle of a zoom animation. -/
def stIE9 : MapState ℚ := { stFlat with ie9 := true, zooming := true }

/-- The state after `setFov(30)` on `stFlat`. -/
def stAfterFov30 : MapState ℚ :=
  { stFlat with _fov := some (30 * RADIAN trQ), _pitch := some 0, _angle := some 0 }

/-- The value of `buildProjMatrix` on the `stZeroWidth` scenario. -/
def projZW : Mat4 ℚ :=
  ⟨0, 0, 0, 0, 0, -12/5, -9681/11135, -3/5, 0, 9/5, -12908/11135, -4/5, 0, 0, 4227/2227, 3⟩

/-- The value of `buildPixelMatrix` on the `stZeroWidth` scenario; its first
column is zero (the perspective entry `f / aspect` degenerates with a zero
width), so it is singular. -/
def pixelZW : Mat4 ℚ :=
  ⟨0, 0, 0, 0, 0, 9/5, -9681/11135, -3/5, 0, -13/5, -12908/11135, -4/5, 0, 3, 4227/2227, 3⟩

/-- A flat state carrying an identity camera/pixel matrix set. -/
def stC8 : MapState ℚ :=
  { stFlat with
    pixelMatrix := some mat4Create
    pixelMatrixInverse := some mat4Create
    cameraMatrix := some mat4Create
    projMatrix := some mat4Create }

/-- A symbolizer with base rotation 5 and one reference-point pair. -/
def symC8 : SymbolizerState ℚ := ⟨some 5, some [(⟨1, 2⟩, ⟨3, 4⟩)]⟩

/-- A concrete stand-in for the `computeDegree` collaborator. -/
def degC8 : Pt ℚ → Pt ℚ → ℚ := fun a b => b.x - a.x

/-! ### Structural lemmas about `_calcMatrices` and the setters -/

@[simp] lemma falsy_none : falsy (none : Option K) = true := by simp [falsy]

@[simp] lemma falsy_some (x : K) : falsy (some x) = decide (x = 0) := by
  by_cases h : x = 0 <;> simp [falsy, h]

lemma trQ_sin (x : ℚ) : trQ.sin x = if x = 0 then 0 else 3/5 := rfl

lemma trQ_cos (x : ℚ) : trQ.cos x = if x = 0 then 1 else 4/5 := rfl

lemma trQ_tan (x : ℚ) : trQ.tan x = 1/3 := rfl

lemma trQ_pi : trQ.pi = 884279719003555/281474976710656 := rfl

lemma falsy_fill_fov (st : MapState K) : falsy (fillDefaults st)._fov = false := by
  by_cases h : falsy st._fov <;> simp_all [fillDefaults, falsy, defaultFov]

lemma falsy_fill_pitch (st : MapState K) :
    falsy (fillDefaults st)._pitch = falsy st._pitch := by
  by_cases h : falsy st._pitch <;> simp_all [fillDefaults, falsy]

lemma falsy_fill_angle (st : MapState K) :
    falsy (fillDefaults st)._angle = falsy st._angle := by
  by_cases h : falsy st._angle <;> simp_all [fillDefaults, falsy]

lemma calcMatrices_err (tr : Trig K) (st : MapState K) :
    (calcMatrices tr st).2 = none ∨ (calcMatrices tr st).2 = some MapErr.invertFail := by
  by_cases hh : st.height = 0
  · simp [calcMatrices, hh]
  · by_cases hp : falsy st._pitch <;> by_cases ha : falsy st._angle
    <;> simp only [calcMatrices, hh, if_false, ite_false, falsy_fill_pitch, falsy_fill_angle, hp, ha]
    <;> simp_all
    <;> (try rcases hinv : mat4Invert (buildPixelMatrix tr _ _ _ _ _ _) with _ | inv)
    <;> simp_all

lemma calcMatrices_preserves (tr : Trig K) (st : MapState K) :
    (calcMatrices tr st).1.ie9 = st.ie9 ∧ (calcMatrices tr st).1.zooming = st.zooming ∧
    (calcMatrices tr st).1.height = st.height ∧ (calcMatrices tr st).1.width = st.width ∧
    (calcMatrices tr st).1.centerPoint = st.centerPoint := by
  by_cases hh : st.height = 0
  · simp [calcMatrices, hh]
  · by_cases hp : falsy st._pitch <;> by_cases ha : falsy st._angle
    <;> simp only [calcMatrices, hh, if_false, ite_false, falsy_fill_pitch, falsy_fill_angle, hp, ha]
    <;> simp_all [clearMatrices, fillDefaults]
    <;> (try rcases hinv : mat4Invert (buildPixelMatrix tr _ _ _ _ _ _) with _ | inv)
    <;> simp_all

lemma calcMatrices_fail_preserves (tr : Trig K) (st : MapState K) :
    (calcMatrices tr st).2 = some MapErr.invertFail →
    (calcMatrices tr st).1.pixelMatrixInverse = st.pixelMatrixInverse ∧
    (calcMatrices tr st).1.cameraMatrix = st.cameraMatrix := by
  by_cases hh : st.height = 0
  · simp [calcMatrices, hh]
  · by_cases hp : falsy st._pitch <;> by_cases ha : falsy st._angle
    <;> simp only [calcMatrices, hh, if_false, ite_false, falsy_fill_pitch, falsy_fill_angle, hp, ha]
    <;> simp_all [clearMatrices, fillDefaults]
    <;> (try rcases hinv : mat4Invert (buildPixelMatrix tr _ _ _ _ _ _) with _ | inv)
    <;> simp_all

lemma calcMatrices_pitch (tr : Trig K) (st : MapState K) (hh : st.height ≠ 0) :
    (calcMatrices tr st).1._pitch = (if falsy st._pitch then some 0 else st._pitch) := by
  by_cases hp : falsy st._pitch <;> by_cases ha : falsy st._angle
    <;> simp only [calcMatrices, hh, if_false, ite_false, falsy_fill_pitch, falsy_fill_angle, hp, ha]
    <;> simp_all [clearMatrices, fillDefaults]
    <;> (try rcases hinv : mat4Invert (buildPixelMatrix tr _ _ _ _ _ _) with _ | inv)
    <;> simp_all

lemma calcMatrices_angle (tr : Trig K) (st : MapState K) (hh : st.height ≠ 0) :
    (calcMatrices tr st).1._angle = (if falsy st._angle then some 0 else st._angle) := by
  by_cases hp : falsy st._pitch <;> by_cases ha : falsy st._angle
    <;> simp only [calcMatrices, hh, if_false, ite_false, falsy_fill_pitch, falsy_fill_angle, hp, ha]
    <;> simp_all [clearMatrices, fillDefaults]
    <;> (try rcases hinv : mat4Invert (buildPixelMatrix tr _ _ _ _ _ _) with _ | inv)
    <;> simp_all

lemma calcMatrices_fovField (tr : Trig K) (st : MapState K) (hh : st.height ≠ 0) :
    (calcMatrices tr st).1._fov = (if falsy st._fov then some (defaultFov K) else st._fov) := by
  by_cases hfv : falsy st._fov <;> by_cases hp : falsy st._pitch <;> by_cases ha : falsy st._angle
    <;> simp only [calcMatrices, hh, if_false, ite_false, falsy_fill_pitch, falsy_fill_angle, hp, ha]
    <;> simp_all [clearMatrices, fillDefaults]
    <;> (try rcases hinv : mat4Invert (buildPixelMatrix tr _ _ _ _ _ _) with _ | inv)
    <;> simp_all

lemma calcMatrices_flat (tr : Trig K) (st : MapState K) (hh : st.height ≠ 0)
    (hp : falsy st._pitch = true) (ha : falsy st._angle = true) :
    (calcMatrices tr st).2 = none ∧
    (calcMatrices tr st).1.projMatrix = none ∧ (calcMatrices tr st).1.pixelMatrix = none ∧
    (calcMatrices tr st).1.pixelMatrixInverse = none ∧ (calcMatrices tr st).1.cameraMatrix = none := by
  simp only [calcMatrices, hh, if_false, ite_false, falsy_fill_pitch, falsy_fill_angle, hp, ha]
  simp [clearMatrices]

lemma setFov_err (tr : Trig K) (st : MapState K) (v : K) :
    (setFov tr st v).2.2 = none ∨ (setFov tr st v).2.2 = some MapErr.invertFail := by
  unfold setFov
  dsimp only
  split
  · simp
  · split
    · simp
    · split
      · next st2 e heq =>
        have h2 := calcMatrices_err tr
          { st with _fov := some (max (1/100) (min 60 v) * RADIAN tr) }
        rw [heq] at h2
        simp_all
      · simp

lemma setPitch_fail_preserves (tr : Trig K) (st : MapState K) (v : K) :
    (setPitch tr st v).2.2 = some MapErr.invertFail →
    (setPitch tr st v).1.pixelMatrixInverse = st.pixelMatrixInverse ∧
    (setPitch tr st v).1.cameraMatrix = st.cameraMatrix := by
  unfold setPitch
  dsimp only
  split
  · simp
  · split
    · simp
    · split
      · simp
      · split
        · next st2 e heq =>
          have h2 := calcMatrices_fail_preserves tr
            { st with _pitch := some (clamp v 0 60 * RADIAN tr) }
          rw [heq] at h2
          intro he
          simp only [Option.some.injEq] at he
          subst he
          simpa using h2 rfl
        · simp

/-- The concrete run of `setPitch(45)` on the zero-width tilted state: the
pixel matrix is singular, the inversion fails and the error propagates with
`projMatrix` and `pixelMatrix` already replaced. -/
lemma setPitch_zw_eval :
    setPitch trQ stZeroWidth 45 =
      ({ stZeroWidth with
          _pitch := some (45 * RADIAN trQ)
          cameraToCenterDistance := 3
          projMatrix := some projZW
          pixelMatrix := some pixelZW },
       [Eff.calcM], some MapErr.invertFail) := by
  have hp : (45 * RADIAN trQ : ℚ) ≠ 0 := by norm_num [RADIAN, trQ]
  have h1 : clamp (45:ℚ) 0 60 * RADIAN trQ = 45 * RADIAN trQ := by
    norm_num [clamp]
  have h2 : (1:ℚ) ≠ 45 * RADIAN trQ := by norm_num [RADIAN, trQ]
  have hproj : buildProjMatrix trQ 1 (45 * RADIAN trQ) 0 0 2 ⟨0,0⟩ = projZW := by
    norm_num [buildProjMatrix, mat4Perspective, mat4Scale, mat4Translate,
      mat4RotateX, mat4RotateZ, mat4Create, trQ, RADIAN, projZW]
  have hpixel : buildPixelMatrix trQ 1 (45 * RADIAN trQ) 0 0 2 ⟨0,0⟩ = pixelZW := by
    rw [buildPixelMatrix, hproj]
    norm_num [mat4Mul, mat4Scale, mat4Translate, mat4Create, projZW, pixelZW]
  have hsing : mat4Invert pixelZW = none := by
    norm_num [mat4Invert, pixelZW]
  unfold setPitch
  rw [h1]
  unfold calcMatrices fillDefaults
  norm_num [stZeroWidth, hp, h2, jsVal, trQ_tan, hpixel, hproj, hsing]

/-- C10: when the viewport height is unset or zero, `_calcMatrices` returns
immediately and leaves every previously stored derived matrix exactly as it
was, neither rebuilding nor clearing them. -/
theorem C10_zero_height_keeps_matrices (tr : Trig K) (st : MapState K)
    (h : st.height = 0) :
    calcMatrices tr st = (st, none) ∧
    (calcMatrices tr st).1.projMatrix = st.projMatrix ∧
    (calcMatrices tr st).1.pixelMatrix = st.pixelMatrix ∧
    (calcMatrices tr st).1.pixelMatrixInverse = st.pixelMatrixInverse ∧
    (calcMatrices tr st).1.cameraMatrix = st.cameraMatrix := by
  simp [calcMatrices, h]

theorem C10_zero_height_keeps_matrices_witness :
    ({ stZeroWidth with height := 0 }.height = 0) ∧
    ({ stZeroWidth with height := 0 }.pixelMatrixInverse = some mat4Create) ∧
    calcMatrices trQ { stZeroWidth with height := 0 } =
      ({ stZeroWidth with height := 0 }, none) :=
  ⟨rfl, rfl, (C10_zero_height_keeps_matrices trQ _ rfl).1⟩

/-- C9: on an IE9 backend `setBearing` and `setPitch` always raise the
capability error (the check precedes the `isZooming()` guard, so it fires
even mid-zoom), while `setFov` never raises a capability error. -/
theorem C9_ie9_capability_check (tr : Trig K) [FloorRing K]
    (st st2 : MapState K) (v v2 : K) (h : st.ie9 = true) :
    (setBearing tr st v).2.2 = some MapErr.ie9Rotate ∧
    (setPitch tr st v).2.2 = some MapErr.ie9Tilt ∧
    (setFov tr st2 v2).2.2 ≠ some MapErr.ie9Rotate ∧
    (setFov tr st2 v2).2.2 ≠ some MapErr.ie9Tilt := by
  refine ⟨by simp [setBearing, h], by simp [setPitch, h], ?_, ?_⟩ <;>
    rcases setFov_err tr st2 v2 with h2 | h2 <;> simp [h2]

theorem C9_ie9_capability_check_witness :
    stIE9.ie9 = true ∧ stIE9.zooming = true ∧
    (setBearing trQ stIE9 45).2.2 = some MapErr.ie9Rotate ∧
    (setPitch trQ stIE9 45).2.2 = some MapErr.ie9Tilt ∧
    (setFov trQ stFlat 45).2.2 ≠ some MapErr.ie9Rotate :=
  ⟨rfl, rfl, (C9_ie9_capability_check trQ stIE9 stFlat 45 45 rfl).1,
   (C9_ie9_capability_check trQ stIE9 stFlat 45 45 rfl).2.1,
   (C9_ie9_capability_check trQ stIE9 stFlat 45 45 rfl).2.2.1⟩

/-- C2 (amended): matrix recomputation is not atomic.  On a successful
recomputation all four derived matrices are replaced together, but when the
pixel-matrix inversion fails and the error is raised, `projMatrix` and
`pixelMatrix` have already been replaced while `pixelMatrixInverse` and
`cameraMatrix` keep their pre-mutation values, so a reader observes a mix.
This theorem proves the retention half: on failure the inverse and camera
matrices are exactly the stale pre-mutation ones. -/
theorem C2_invert_failure_keeps_stale_inverse (tr : Trig K) [FloorRing K]
    (st : MapState K) (v : K) :
    ((setFov tr st v).2.2 = some MapErr.invertFail →
      (setFov tr st v).1.pixelMatrixInverse = st.pixelMatrixInverse ∧
      (setFov tr st v).1.cameraMatrix = st.cameraMatrix) ∧
    ((setBearing tr st v).2.2 = some MapErr.invertFail →
      (setBearing tr st v).1.pixelMatrixInverse = st.pixelMatrixInverse ∧
      (setBearing tr st v).1.cameraMatrix = st.cameraMatrix) ∧
    ((setPitch tr st v).2.2 = some MapErr.invertFail →
      (setPitch tr st v).1.pixelMatrixInverse = st.pixelMatrixInverse ∧
      (setPitch tr st v).1.cameraMatrix = st.cameraMatrix) := by
  refine ⟨?_, ?_, setPitch_fail_preserves tr st v⟩
  · unfold setFov
    dsimp only
    split
    · simp
    · split
      · simp
      · split
        · next st2 e heq =>
          have h2 := calcMatrices_fail_preserves tr
            { st with _fov := some (max (1/100) (min 60 v) * RADIAN tr) }
          rw [heq] at h2
          intro he
          simp only [Option.some.injEq] at he
          subst he
          simpa using h2 rfl
        · simp
  · unfold setBearing
    dsimp only
    split
    · simp
    · split
      · simp
      · split
        · simp
        · split
          · next st2 e heq =>
            have h2 := calcMatrices_fail_preserves tr
              { st with _angle := some (-wrap v * RADIAN tr) }
            rw [heq] at h2
            intro he
            simp only [Option.some.injEq] at he
            subst he
            simpa using h2 rfl
          · simp

/-- C2 counterexample: a camera mutation on which the inversion fails and
after which a reader observes new `projMatrix`/`pixelMatrix` next to the
stale `pixelMatrixInverse`/`cameraMatrix` — the claimed all-or-nothing
update is violated. -/
theorem C2_counterexample_mixed_matrices :
    (setPitch trQ stZeroWidth 45).2.2 = some MapErr.invertFail ∧
    (setPitch trQ stZeroWidth 45).1.pixelMatrix ≠ stZeroWidth.pixelMatrix ∧
    (setPitch trQ stZeroWidth 45).1.projMatrix ≠ stZeroWidth.projMatrix ∧
    (setPitch trQ stZeroWidth 45).1.pixelMatrixInverse = stZeroWidth.pixelMatrixInverse ∧
    (setPitch trQ stZeroWidth 45).1.cameraMatrix = stZeroWidth.cameraMatrix := by
  rw [setPitch_zw_eval]
  refine ⟨rfl, ?_, ?_, rfl, rfl⟩ <;>
    norm_num [stZeroWidth, pixelZW, projZW, mat4Create]

theorem C2_invert_failure_keeps_stale_inverse_witness :
    (setPitch trQ stZeroWidth 45).2.2 = some MapErr.invertFail ∧
    (setPitch trQ stZeroWidth 45).1.pixelMatrixInverse = stZeroWidth.pixelMatrixInverse ∧
    (setPitch trQ stZeroWidth 45).1.cameraMatrix = stZeroWidth.cameraMatrix :=
  ⟨by rw [setPitch_zw_eval], (C2_invert_failure_keeps_stale_inverse trQ stZeroWidth 45).2.2
    (by rw [setPitch_zw_eval])⟩

lemma getFov_stAfterFov30 : getFov trQ stAfterFov30 = 30 := by
  norm_num [getFov, stAfterFov30, stFlat, jsVal, RADIAN, trQ]

lemma setFov_flat_eval :
    setFov trQ stFlat 30 =
      (stAfterFov30,
       [Eff.calcM, Eff.render, Eff.fovchange (getFov trQ stFlat) (getFov trQ stAfterFov30)],
       none) := by
  have h0 : (30 * RADIAN trQ : ℚ) ≠ 0 := by norm_num [RADIAN, trQ]
  unfold setFov calcMatrices fillDefaults clearMatrices
  norm_num [stFlat, stAfterFov30, jsVal, h0]
  simp

lemma setFov_again_eval :
    setFov trQ stAfterFov30 30 =
      (stAfterFov30,
       [Eff.calcM, Eff.render, Eff.fovchange (getFov trQ stAfterFov30) (getFov trQ stAfterFov30)],
       none) := by
  have h0 : (30 * RADIAN trQ : ℚ) ≠ 0 := by norm_num [RADIAN, trQ]
  have h1 : (30 * RADIAN trQ : ℚ) ≠ 30 := by norm_num [RADIAN, trQ]
  unfold setFov calcMatrices fillDefaults clearMatrices
  norm_num [stFlat, stAfterFov30, jsVal, h0, h1]

/-- C5: the `setFov` no-op guard is broken (it compares the radian-stored
`_fov` against the clamped degree input), so a second consecutive
`setFov(30)` is not a no-op: the two calls produce two recomputations, two
re-renders and two `fovchange` events (the second with `from = to = 30`),
where the claim requires exactly one of each. -/
theorem C5_setFov_second_call_not_noop :
    (setFov trQ stFlat 30).2.1 ++ (setFov trQ (setFov trQ stFlat 30).1 30).2.1 =
      [Eff.calcM, Eff.render, Eff.fovchange (getFov trQ stFlat) 30,
       Eff.calcM, Eff.render, Eff.fovchange 30 30] ∧
    (setFov trQ (setFov trQ stFlat 30).1 30).2.1 ≠ [] := by
  rw [setFov_flat_eval]
  dsimp only
  rw [setFov_again_eval, getFov_stAfterFov30]
  simp

lemma wrap_90 : wrap (90 : ℚ) = 90 := by
  have h : ⌈((90 : ℚ) - 180) / 360⌉ = 0 := by
    rw [Int.ceil_eq_zero_iff]
    constructor <;> norm_num
  simp [wrap, h]

/-- C6: on a genuine bearing change the `rotate` event carries
`to = -wrap(bearing) * RADIAN` — the internal negated-radian value — while
`getBearing()` afterwards returns the public degree value: for
`setBearing(90)` the payload is `-90 * RADIAN` (about -1.5708) although the
getter returns 90, refuting the claim that `to` is in degrees. -/
theorem C6_rotate_event_payload_in_radians :
    (setBearing trQ stNoHeight 90).2.1 =
      [Eff.calcM, Eff.render, Eff.rotate 0 (-(90 * RADIAN trQ))] ∧
    getBearing trQ (setBearing trQ stNoHeight 90).1 = 90 ∧
    -(90 * RADIAN trQ) ≠ (90 : ℚ) := by
  have h0 : (-(90 * RADIAN trQ) : ℚ) ≠ 0 := by norm_num [RADIAN, trQ]
  unfold setBearing calcMatrices
  norm_num [stNoHeight, wrap_90, getBearing, jsVal, h0, RADIAN, trQ]
  simp
  norm_num [getBearing, jsVal, RADIAN, trQ]

lemma calcMatrices_pitch_any (tr : Trig K) (st : MapState K) :
    (calcMatrices tr st).1._pitch =
      if st.height = 0 then st._pitch
      else if falsy st._pitch then some 0 else st._pitch := by
  by_cases hh : st.height = 0
  · simp [calcMatrices, hh]
  · simp [calcMatrices_pitch tr st hh, hh]

lemma calcMatrices_angle_any (tr : Trig K) (st : MapState K) :
    (calcMatrices tr st).1._angle =
      if st.height = 0 then st._angle
      else if falsy st._angle then some 0 else st._angle := by
  by_cases hh : st.height = 0
  · simp [calcMatrices, hh]
  · simp [calcMatrices_angle tr st hh, hh]

lemma calcMatrices_fov_any (tr : Trig K) (st : MapState K) :
    (calcMatrices tr st).1._fov =
      if st.height = 0 then st._fov
      else if falsy st._fov then some (defaultFov K) else st._fov := by
  by_cases hh : st.height = 0
  · simp [calcMatrices, hh]
  · simp [calcMatrices_fovField tr st hh, hh]

lemma setPitch_state (tr : Trig K) (st : MapState K) (v : K)
    (hie9 : st.ie9 = false) (hzoom : st.zooming = false)
    (hg : st._pitch ≠ some (clamp v 0 60 * RADIAN tr)) :
    (setPitch tr st v).1 =
      (calcMatrices tr { st with _pitch := some (clamp v 0 60 * RADIAN tr) }).1 := by
  unfold setPitch
  dsimp only
  rw [if_neg (by simp [hie9]), if_neg (by simp [hzoom]), if_neg hg]
  split
  · next st2 e heq => rw [heq]
  · next st2 heq => rw [heq]

lemma setBearing_state [FloorRing K] (tr : Trig K) (st : MapState K) (v : K)
    (hie9 : st.ie9 = false) (hzoom : st.zooming = false)
    (hg : st._angle ≠ some (-wrap v * RADIAN tr)) :
    (setBearing tr st v).1 =
      (calcMatrices tr { st with _angle := some (-wrap v * RADIAN tr) }).1 := by
  unfold setBearing
  dsimp only
  rw [if_neg (by simp [hie9]), if_neg (by simp [hzoom]), if_neg hg]
  split
  · next st2 e heq => rw [heq]
  · next st2 heq => rw [heq]

lemma setFov_state (tr : Trig K) (st : MapState K) (v : K)
    (hzoom : st.zooming = false)
    (hg : st._fov ≠ some (max (1/100) (min 60 v))) :
    (setFov tr st v).1 =
      (calcMatrices tr { st with _fov := some (max (1/100) (min 60 v) * RADIAN tr) }).1 := by
  unfold setFov
  dsimp only
  rw [if_neg (by simp [hzoom]), if_neg hg]
  split
  · next st2 e heq => rw [heq]
  · next st2 heq => rw [heq]

lemma wrap_270 [FloorRing K] : wrap (270 : K) = -90 := by
  have h : ⌈((270 : K) - 180) / 360⌉ = 1 := by
    rw [Int.ceil_eq_iff]
    constructor <;> norm_num
  rw [wrap, h]
  norm_num

/-- C4 (amended): setter inputs are clamped/wrapped, never rejected — with
one proviso forced by the broken `setFov` guard (see C5): when not zooming
(and not on IE9), `setPitch(90)` yields `getPitch() == 60`, `setBearing(270)`
yields `getBearing() == -90`, and `setFov(0)` yields `getFov() == 0.01`
provided the stored fov is not already exactly 0.01 radians (in that state
the mis-united guard short-circuits and `getFov()` returns 0.01 radians
converted to degrees instead). -/
theorem C4_setter_clamp_wrap (tr : Trig K) [FloorRing K] (st : MapState K)
    (hie9 : st.ie9 = false) (hzoom : st.zooming = false) (hpi : tr.pi ≠ 0)
    (hfov : st._fov ≠ some (1/100)) :
    getPitch tr (setPitch tr st 90).1 = 60 ∧
    getBearing tr (setBearing tr st 270).1 = -90 ∧
    getFov tr (setFov tr st 0).1 = 1/100 := by
  have hrad : RADIAN tr ≠ 0 := by
    rw [RADIAN]
    exact div_ne_zero hpi (by norm_num)
  refine ⟨?_, ?_, ?_⟩
  · -- setPitch 90
    have hcl : clamp (90 : K) 0 60 = 60 := by norm_num [clamp]
    have hpv : (60 : K) * RADIAN tr ≠ 0 := mul_ne_zero (by norm_num) hrad
    have hget : ∀ st2 : MapState K, st2._pitch = some (60 * RADIAN tr) →
        getPitch tr st2 = 60 := by
      intro st2 h2
      rw [getPitch, h2]
      simp only [falsy_some, jsVal, Option.getD_some, RADIAN]
      rw [if_neg (by simpa [RADIAN] using hpv)]
      field_simp
      ring
    by_cases hg : st._pitch = some (clamp 90 0 60 * RADIAN tr)
    · have : (setPitch tr st 90).1 = st := by
        unfold setPitch
        dsimp only
        rw [if_neg (by simp [hie9]), if_neg (by simp [hzoom]), if_pos hg]
      rw [this]
      rw [hcl] at hg
      exact hget st hg
    · rw [setPitch_state tr st 90 hie9 hzoom hg]
      apply hget
      rw [calcMatrices_pitch_any]
      rw [hcl]
      by_cases hh : ({ st with _pitch := some ((60:K) * RADIAN tr) } : MapState K).height = 0
      <;> simp [hh, hpv]
  · -- setBearing 270
    have hbv : (-wrap (270:K) * RADIAN tr) = 90 * RADIAN tr := by rw [wrap_270]; ring
    have hpv : (90 : K) * RADIAN tr ≠ 0 := mul_ne_zero (by norm_num) hrad
    have hget : ∀ st2 : MapState K, st2._angle = some (90 * RADIAN tr) →
        getBearing tr st2 = -90 := by
      intro st2 h2
      rw [getBearing, h2]
      simp only [falsy_some, jsVal, Option.getD_some]
      rw [if_neg (by simpa using hpv)]
      rw [RADIAN] at hrad ⊢
      field_simp
      ring
    by_cases hg : st._angle = some (-wrap 270 * RADIAN tr)
    · have : (setBearing tr st 270).1 = st := by
        unfold setBearing
        dsimp only
        rw [if_neg (by simp [hie9]), if_neg (by simp [hzoom]), if_pos hg]
      rw [this]
      rw [hbv] at hg
      exact hget st hg
    · rw [setBearing_state tr st 270 hie9 hzoom hg]
      apply hget
      rw [calcMatrices_angle_any]
      have hproj : ({ st with _angle := some (-wrap (270:K) * RADIAN tr) } : MapState K)._angle
          = some (90 * RADIAN tr) := by rw [hbv]
      rw [hproj]
      by_cases hh : st.height = 0 <;> simp [hh, hpv]
  · -- setFov 0
    have hcl : max (1/100 : K) (min 60 0) = 1/100 := by norm_num
    have hpv : (1/100 : K) * RADIAN tr ≠ 0 := mul_ne_zero (by norm_num) hrad
    have hget : ∀ st2 : MapState K, st2._fov = some (1/100 * RADIAN tr) →
        getFov tr st2 = 1/100 := by
      intro st2 h2
      rw [getFov, h2]
      simp only [falsy_some, jsVal, Option.getD_some]
      rw [if_neg (by simpa using hpv)]
      rw [RADIAN] at hrad ⊢
      field_simp
      ring
    have hg : st._fov ≠ some (max (1/100 : K) (min 60 0)) := by rw [hcl]; exact hfov
    rw [setFov_state tr st 0 hzoom hg]
    apply hget
    rw [calcMatrices_fov_any]
    have hproj : ({ st with _fov := some (max (1/100:K) (min 60 0) * RADIAN tr) } : MapState K)._fov
        = some (1/100 * RADIAN tr) := by rw [hcl]
    rw [hproj]
    by_cases hh : st.height = 0 <;> simp [hh, hpv, hrad]

/-- C4 counterexample: in the (reachable) state whose internal `_fov` is
exactly 0.01 radians, `setFov(0)` hits the mis-united no-op guard
(`this._fov === fov` compares radians against the clamped input 0.01) and
returns unchanged, so `getFov()` does not return the minimum fov 0.01. -/
theorem C4_counterexample_stored_fov_001 :
    stFov001.zooming = false ∧ stFov001.ie9 = false ∧
    getFov trQ (setFov trQ stFov001 0).1 ≠ 1/100 := by
  refine ⟨rfl, rfl, ?_⟩
  have h : setFov trQ stFov001 0 = (stFov001, [], none) := by
    unfold setFov
    norm_num [stFov001, stFlat]
  rw [h]
  norm_num [getFov, stFov001, stFlat, jsVal, RADIAN, trQ]

theorem C4_setter_clamp_wrap_witness :
    (stNoHeight.ie9 = false ∧ stNoHeight.zooming = false ∧ trQ.pi ≠ 0 ∧
      stNoHeight._fov ≠ some (1/100)) ∧
    getPitch trQ (setPitch trQ stNoHeight 90).1 = 60 ∧
    getBearing trQ (setBearing trQ stNoHeight 270).1 = -90 ∧
    getFov trQ (setFov trQ stNoHeight 0).1 = 1/100 :=
  ⟨⟨rfl, rfl, by norm_num [trQ], by simp [stNoHeight]⟩,
   C4_setter_clamp_wrap trQ stNoHeight rfl rfl (by norm_num [trQ]) (by simp [stNoHeight])⟩

lemma wrap_zero [FloorRing K] : wrap (0 : K) = 0 := by
  have h : ⌈((0 : K) - 180) / 360⌉ = 0 := by
    rw [Int.ceil_eq_zero_iff]
    constructor <;> norm_num
  rw [wrap, h]
  norm_num

lemma setPitch_err_state (tr : Trig K) (st : MapState K) (v : K)
    (hie9 : st.ie9 = false) (hzoom : st.zooming = false)
    (hg : st._pitch ≠ some (clamp v 0 60 * RADIAN tr)) :
    (setPitch tr st v).2.2 =
      (calcMatrices tr { st with _pitch := some (clamp v 0 60 * RADIAN tr) }).2 := by
  unfold setPitch
  dsimp only
  rw [if_neg (by simp [hie9]), if_neg (by simp [hzoom]), if_neg hg]
  split
  · next st2 e heq => rw [heq]
  · next st2 heq => rw [heq]

/-- C3: starting from any tilted state (truthy pitch), `setPitch(0)`
followed by `setBearing(0)` ends with pitch and bearing both zero, all four
derived matrices cleared, and `getCameraMatrix() == null`, so the projector
functions take the flat-mode affine path (they match on the cleared
matrices). -/
theorem C3_flat_mode_clears_matrices (tr : Trig K) [FloorRing K] (st : MapState K)
    (hie9 : st.ie9 = false) (hzoom : st.zooming = false) (hh : st.height ≠ 0)
    (hp1 : st._pitch ≠ none) (hp2 : st._pitch ≠ some 0)
    (herr : (setPitch tr st 0).2.2 = none) :
    getCameraMatrix (setBearing tr (setPitch tr st 0).1 0).1 = none ∧
    (setBearing tr (setPitch tr st 0).1 0).1.projMatrix = none ∧
    (setBearing tr (setPitch tr st 0).1 0).1.pixelMatrix = none ∧
    (setBearing tr (setPitch tr st 0).1 0).1.pixelMatrixInverse = none ∧
    (setBearing tr (setPitch tr st 0).1 0).1.cameraMatrix = none := by
  have hcl : clamp (0:K) 0 60 * RADIAN tr = 0 := by
    norm_num [clamp]
  have hg : st._pitch ≠ some (clamp 0 0 60 * RADIAN tr) := by rw [hcl]; exact hp2
  have hst1 : (setPitch tr st 0).1 = (calcMatrices tr { st with _pitch := some 0 }).1 := by
    rw [setPitch_state tr st 0 hie9 hzoom hg, hcl]
  have hb : (-wrap (0:K) * RADIAN tr) = 0 := by rw [wrap_zero]; ring
  set stp : MapState K := { st with _pitch := some 0 } with hstp
  have hpres := calcMatrices_preserves tr stp
  have hhp : stp.height ≠ 0 := hh
  have hpitch1 : (calcMatrices tr stp).1._pitch = some 0 := by
    rw [calcMatrices_pitch_any]
    simp [hstp, hh]
  by_cases ha : falsy st._angle = true
  · -- bearing already falsy: first call clears, second is a no-op
    have hflat := calcMatrices_flat tr stp hhp (by simp [hstp]) (by simp [hstp, ha])
    have hangle1 : (calcMatrices tr stp).1._angle = some 0 := by
      rw [calcMatrices_angle_any]
      simp [hstp, hh, ha]
    have hguard : (calcMatrices tr stp).1._angle = some (-wrap (0:K) * RADIAN tr) := by
      rw [hb, hangle1]
    have hsb : (setBearing tr (setPitch tr st 0).1 0).1 = (calcMatrices tr stp).1 := by
      rw [hst1]
      unfold setBearing
      dsimp only
      rw [if_neg (by simp [hpres.1, hie9]), if_neg (by simp [hpres.2.1, hzoom]),
        if_pos hguard]
    rw [hsb]
    exact ⟨by simp [getCameraMatrix, hflat.2.2.2.2], hflat.2.1, hflat.2.2.1,
      hflat.2.2.2.1, hflat.2.2.2.2⟩
  · -- bearing still set: first call rebuilds, second call clears
    have herr2 : (calcMatrices tr stp).2 = none := by
      rw [setPitch_err_state tr st 0 hie9 hzoom hg, hcl] at herr
      exact herr
    have hangle1 : (calcMatrices tr stp).1._angle = st._angle := by
      rw [calcMatrices_angle_any]
      simp [hstp, hh, ha]
    obtain ⟨a, haa, hane⟩ : ∃ a, st._angle = some a ∧ a ≠ 0 := by
      rcases hx : st._angle with _ | a
      · rw [hx] at ha; simp at ha
      · rw [hx] at ha
        refine ⟨a, rfl, ?_⟩
        intro h0
        rw [h0] at ha
        simp at ha
    have hguard : (calcMatrices tr stp).1._angle ≠ some (-wrap (0:K) * RADIAN tr) := by
      rw [hb, hangle1, haa]
      simp [hane]
    have hsb : (setBearing tr (setPitch tr st 0).1 0).1 =
        (calcMatrices tr { (calcMatrices tr stp).1 with _angle := some (-wrap (0:K) * RADIAN tr) }).1 := by
      rw [hst1]
      exact setBearing_state tr (calcMatrices tr stp).1 0
        (by rw [hpres.1]; exact hie9) (by rw [hpres.2.1]; exact hzoom) hguard
    set st2 : MapState K := { (calcMatrices tr stp).1 with _angle := some (-wrap (0:K) * RADIAN tr) } with hst2
    have hflat := calcMatrices_flat tr st2
      (by simp [hst2, hpres.2.2.1]; exact hh)
      (by simp [hst2, hpitch1])
      (by simp [hst2, hb])
    rw [hsb]
    exact ⟨by simp [getCameraMatrix, hflat.2.2.2.2], hflat.2.1, hflat.2.2.1,
      hflat.2.2.2.1, hflat.2.2.2.2⟩

theorem C3_flat_mode_clears_matrices_witness :
    (stTilted.ie9 = false ∧ stTilted.zooming = false ∧ stTilted.height ≠ 0 ∧
      stTilted._pitch ≠ none ∧ stTilted._pitch ≠ some 0 ∧
      (setPitch trQ stTilted 0).2.2 = none) ∧
    stTilted.cameraMatrix = some mat4Create ∧
    getCameraMatrix (setBearing trQ (setPitch trQ stTilted 0).1 0).1 = none := by
  have herr : (setPitch trQ stTilted 0).2.2 = none := by
    unfold setPitch calcMatrices fillDefaults clearMatrices
    norm_num [stTilted, clamp, RADIAN, trQ, jsVal]
  refine ⟨⟨rfl, rfl, by norm_num [stTilted], by simp [stTilted], by simp [stTilted], herr⟩,
    rfl, ?_⟩
  exact (C3_flat_mode_clears_matrices trQ stTilted rfl rfl (by norm_num [stTilted])
    (by simp [stTilted]) (by simp [stTilted]) herr).1

/-- C8: `_getRotationAt(i)` returns the configured base rotation plus the
directional angle computed from the i-th pair of reference points; when a
camera matrix is active (`getCameraMatrix()` non-null) both reference
points are first forward-projected through `_pointToContainerPoint` at the
maximum zoom before the angle is computed; with no rotations array it
returns the base rotation alone. -/
theorem C8_rotation_at (deg : Pt K → Pt K → K) (p2pMax : Pt K → Pt K)
    (st : MapState K) (sym : SymbolizerState K) (i : ℕ) :
    (sym.renderRotations = none → getRotationAt deg p2pMax st sym i = sym.rotation) ∧
    (∀ rots, sym.renderRotations = some rots →
      ∀ cm, getCameraMatrix st = some cm →
        getRotationAt deg p2pMax st sym i =
          some ((if falsy sym.rotation then 0 else jsVal sym.rotation) +
            deg (st.p2c (p2pMax (rots.getD i (⟨0,0⟩, ⟨0,0⟩)).1))
                (st.p2c (p2pMax (rots.getD i (⟨0,0⟩, ⟨0,0⟩)).2)))) ∧
    (∀ rots, sym.renderRotations = some rots →
      getCameraMatrix st = none →
        getRotationAt deg p2pMax st sym i =
          some ((if falsy sym.rotation then 0 else jsVal sym.rotation) +
            deg (rots.getD i (⟨0,0⟩, ⟨0,0⟩)).1 (rots.getD i (⟨0,0⟩, ⟨0,0⟩)).2)) := by
  refine ⟨fun h => by simp [getRotationAt, h], fun rots hr cm hcm => ?_, fun rots hr hcm => ?_⟩
  · simp [getRotationAt, hr, hcm, MapState.p2c]
  · simp [getRotationAt, hr, hcm]

theorem C8_rotation_at_witness :
    symC8.renderRotations = some [(⟨1, 2⟩, ⟨3, 4⟩)] ∧
    getCameraMatrix stC8 = some mat4Create ∧
    getRotationAt degC8 id stC8 symC8 0 = some 7 := by
  have hcm : getCameraMatrix stC8 = some mat4Create := by simp [getCameraMatrix, stC8]
  have h := (C8_rotation_at degC8 id stC8 symC8 0).2.1 [(⟨1, 2⟩, ⟨3, 4⟩)] rfl mat4Create hcm
  refine ⟨rfl, hcm, ?_⟩
  rw [h]
  norm_num [symC8, degC8, stC8, stFlat, MapState.p2c, pointToContainerPoint,
    transformMat4, mat4Create, jsVal]

end MT
